import Mathlib

/-!
Verification of the MCCI Serial-over-Modbus protocol definitions
(`MCCI_Modbus_Serial_Protocol.h`).

The C++ header is a collection of `constexpr` pure functions over fixed-width
unsigned integers.  We embed it shallowly: `uint8` / `uint16` / `uint32`
values become `Nat` with explicit `% 256` / `% 65536` / `% 4294967296`
truncation exactly where the C++ types force a conversion, and the C++
bitwise operators become the corresponding `Nat` operations.  C++ arithmetic
on values promoted to `int` is modelled without truncation (no intermediate
result here can reach `2^31`), with the truncation applied where a result is
converted back to an unsigned type.
-/

namespace McciCatena

namespace Internal

/-- `Internal::makeVersion`: pack four 8-bit version components into a
32-bit word, `(major << 24) | (minor << 16) | (patch << 8) | local`.
The `% 256` reflect the `std::uint8_t` parameter types. -/
def makeVersion (major minor patch localVer : Nat) : Nat :=
  ((major % 256) <<< 24) ||| ((minor % 256) <<< 16) ||| ((patch % 256) <<< 8) ||| (localVer % 256)

end Internal

namespace ModbusSerialProtocol

/-- `ModbusSerialProtocol::makeVersion`: delegates to `Internal::makeVersion`. -/
def makeVersion (major minor patch localVer : Nat) : Nat :=
  Internal.makeVersion major minor patch localVer

/-- `getMajor`: `uint8_t(v >> 24)`. -/
def getMajor (v : Nat) : Nat := (v >>> 24) % 256

/-- `getMinor`: `uint8_t(v >> 16)`. -/
def getMinor (v : Nat) : Nat := (v >>> 16) % 256

/-- `getPatch`: `uint8_t(v >> 8)`. -/
def getPatch (v : Nat) : Nat := (v >>> 8) % 256

/-- `getLocal`: `uint8_t(v)`. -/
def getLocal (v : Nat) : Nat := v % 256

/-- `kVersion = Internal::makeVersion(0,1,0,0)`. -/
def kVersion : Nat := Internal.makeVersion 0 1 0 0

/-- `knRxDataReg = 63`. -/
def knRxDataReg : Nat := 63

/-- `knTxDataReg = 63`. -/
def knTxDataReg : Nat := 63

/-- `getAddress`: `static_cast<uint16_t>(r) - 1`, computed in `int` and
truncated back to `uint16_t` (so `r = 0` wraps to `65535`). -/
def getAddress (r : Nat) : Nat := (r % 65536 + 65535) % 65536

/-- `getRegister`: `TRegister(address + 1)`, the enum cast truncating to
16 bits. -/
def getRegister (address : Nat) : Nat := (address % 65536 + 1) % 65536

namespace Register

/-- `Register::DummyReg_i32 = 1`. -/
def DummyReg_i32 : Nat := 1

/-- `Register::Baudrate_i32 = 3`. -/
def Baudrate_i32 : Nat := 3

/-- `Register::Status_u16 = 1001`. -/
def Status_u16 : Nat := 1001

/-- `Register::RxData_vu16`: enum auto-increment, `Status_u16 + 1` (`= 1002`). -/
def RxData_vu16 : Nat := Status_u16 + 1

/-- `Register::RxData0_u16 = RxData_vu16 + 0`. -/
def RxData0_u16 : Nat := RxData_vu16 + 0

/-- `Register::RxDataLast_u16 = RxData_vu16 + knRxDataReg - 1` (`= 1064`). -/
def RxDataLast_u16 : Nat := RxData_vu16 + knRxDataReg - 1

/-- `Register::TxData_vu16 = 2001`. -/
def TxData_vu16 : Nat := 2001

/-- `Register::TxData0_u16 = TxData_vu16 + 0`. -/
def TxData0_u16 : Nat := TxData_vu16 + 0

/-- `Register::TxDataLast_u16 = TxData_vu16 + knTxDataReg - 1` (`= 2063`). -/
def TxDataLast_u16 : Nat := TxData_vu16 + knTxDataReg - 1

/-- `Register::TxDataByte_u16`: enum auto-increment, `TxDataLast_u16 + 1` (`= 2064`). -/
def TxDataByte_u16 : Nat := TxDataLast_u16 + 1

end Register

/-- `class StatusBits`: an immutable 16-bit status image.  The `m_bits`
member is a `std::uint16_t`; every operation that stores into it truncates
with `% 65536`. -/
structure StatusBits where
  m_bits : Nat
  deriving DecidableEq, Repr

/-- Result of `StatusBits::getTxRegisterAndCount`: the function's return
value `nToSend` together with its two out-parameters. -/
structure TxPlan where
  charsToSend : Nat
  regCount : Nat
  baseReg : Nat
  deriving DecidableEq, Repr

namespace StatusBits

/-- `kInputAvail = 0x007f`. -/
def kInputAvail : Nat := 0x007f

/-- `kTxEmpty = 0x0080`. -/
def kTxEmpty : Nat := 0x0080

/-- `kTxAvail = 0x7F00`. -/
def kTxAvail : Nat := 0x7F00

/-- `kConnect = 0x8000`. -/
def kConnect : Nat := 0x8000

/-- `getLsb`: `mask & -(int)mask` in 32-bit `unsigned` arithmetic; the
negation of the (nonnegative) mask converts back to `unsigned` as
`2^32 - mask` (mod `2^32`). -/
def getLsb (mask : Nat) : Nat := mask &&& ((4294967296 - mask) % 4294967296)

/-- `getField`: `v / getLsb(fieldMask)`.  Note the source divides the whole
word and never masks with `fieldMask`. -/
def getField (fieldMask v : Nat) : Nat := v / getLsb fieldMask

/-- `calcField`: `(oldVal & ~fieldMask) | ((v * getLsb(fieldMask)) & fieldMask)`.
`~fieldMask` is computed on the 32-bit `int` promotion, and the result is
truncated to `uint16_t` by the return type. -/
def calcField (fieldMask oldVal v : Nat) : Nat :=
  ((oldVal &&& (4294967295 ^^^ fieldMask)) ||| ((v * getLsb fieldMask) &&& fieldMask)) % 65536

/-- `setField`: stores `calcField` into `m_bits` and returns the result
(value semantics: we return the updated `StatusBits`). -/
def setField (s : StatusBits) (fieldMask v : Nat) : StatusBits :=
  ⟨calcField fieldMask s.m_bits v⟩

/-- `nCharsToRegs`: `(nChars >> 1) + (nChars & 1)`, a `uint16_t` result. -/
def nCharsToRegs (nChars : Nat) : Nat := ((nChars >>> 1) + (nChars &&& 1)) % 65536

/-- `getBits`. -/
def getBits (s : StatusBits) : Nat := s.m_bits

/-- `getInputAvail`: `getField(kInputAvail, m_bits)`. -/
def getInputAvail (s : StatusBits) : Nat := getField kInputAvail s.m_bits

/-- `getRegsToReadForInput`: `nCharsToRegs(getInputAvail())`. -/
def getRegsToReadForInput (s : StatusBits) : Nat := nCharsToRegs s.getInputAvail

/-- `setInputAvail`: `setField(kInputAvail, nAvail)`; the parameter is a
`std::uint8_t`, hence `% 256`. -/
def setInputAvail (s : StatusBits) (nAvail : Nat) : StatusBits :=
  s.setField kInputAvail (nAvail % 256)

/-- `isTxEmpty`: `(m_bits & kTxEmpty) != 0`. -/
def isTxEmpty (s : StatusBits) : Bool := s.m_bits &&& kTxEmpty != 0

/-- `setTxEmpty`: `setField(kTxEmpty, isEmpty)` with the C++ `bool`
converting to `1` or `0`. -/
def setTxEmpty (s : StatusBits) (isEmpty : Bool) : StatusBits :=
  s.setField kTxEmpty (if isEmpty then 1 else 0)

/-- `getTxAvail`: `getField(kTxAvail, m_bits)`. -/
def getTxAvail (s : StatusBits) : Nat := getField kTxAvail s.m_bits

/-- `getTxRegisterAndCount`: the transmit-window planner.  Mirrors the
source line by line; `baseRegNum` is a `uint16_t`, so the subtraction from
`TxDataLast_u16` and the `++` are taken mod `2^16`. -/
def getTxRegisterAndCount (s : StatusBits) (nToWrite : Nat) : TxPlan :=
  let nToSend0 := s.getTxAvail
  let nToSend := if nToWrite < nToSend0 then nToWrite else nToSend0
  let regCount := nCharsToRegs nToSend
  let baseRegNum0 := (Register.TxDataLast_u16 + 65536 - regCount) % 65536
  let baseRegNum := if regCount &&& 1 ≠ 0 then (baseRegNum0 + 1) % 65536 else baseRegNum0
  ⟨nToSend, regCount, baseRegNum⟩

/-- `setTxAvail`: `setField(kTxAvail, nAvail)` with a `std::uint8_t`
parameter. -/
def setTxAvail (s : StatusBits) (nAvail : Nat) : StatusBits :=
  s.setField kTxAvail (nAvail % 256)

/-- `isConnected`: `(m_bits & kConnect) != 0`. -/
def isConnected (s : StatusBits) : Bool := s.m_bits &&& kConnect != 0

/-- `setConnected`: `setField(kConnect, fConnected)`. -/
def setConnected (s : StatusBits) (fConnected : Bool) : StatusBits :=
  s.setField kConnect (if fConnected then 1 else 0)

end StatusBits

end ModbusSerialProtocol

end McciCatena

namespace McciCatena

/-- Right shift distributes over bitwise or. -/
theorem lor_shiftRight_distrib (a b n : Nat) : (a ||| b) >>> n = (a >>> n) ||| (b >>> n) := by
  apply Nat.eq_of_testBit_eq
  intro i
  simp [Nat.testBit_shiftRight, Nat.testBit_or]

/-- Shifting left then right by the same amount is the identity. -/
theorem shiftLeft_shiftRight_self (x n : Nat) : (x <<< n) >>> n = x := by
  rw [Nat.shiftLeft_eq, Nat.shiftRight_eq_div_pow]
  exact Nat.mul_div_cancel _ (Nat.two_pow_pos n)

/-- Masking with a low-bits mask is reduction mod a power of two. -/
theorem land_two_pow_sub_one_eq_mod (x n : Nat) : x &&& (2 ^ n - 1) = x % 2 ^ n := by
  apply Nat.eq_of_testBit_eq
  intro i
  simp [Nat.testBit_and, Nat.testBit_two_pow_sub_one, Nat.testBit_mod_two_pow, Bool.and_comm]

/-- Or-ing a left-shifted value with a value below the shift amount is
plain addition. -/
theorem shiftLeft_lor_eq_add (x y n : Nat) (h : y < 2 ^ n) : (x <<< n) ||| y = x * 2 ^ n + y := by
  have hmod : ((x <<< n) ||| y) % 2 ^ n = y := by
    apply Nat.eq_of_testBit_eq
    intro i
    rcases Nat.lt_or_ge i n with hi | hi
    · simp [Nat.testBit_mod_two_pow, Nat.testBit_or, Nat.testBit_shiftLeft, hi, Nat.not_le.mpr hi]
    · have hy : y.testBit i = false :=
        Nat.testBit_lt_two_pow (lt_of_lt_of_le h (Nat.pow_le_pow_right (by norm_num) hi))
      simp [Nat.testBit_mod_two_pow, Nat.not_lt.mpr hi, hy]
  have hdiv : ((x <<< n) ||| y) >>> n = x := by
    rw [lor_shiftRight_distrib, shiftLeft_shiftRight_self, Nat.shiftRight_eq_div_pow,
      Nat.div_eq_of_lt h, Nat.or_zero]
  rw [Nat.shiftRight_eq_div_pow] at hdiv
  have hz := Nat.div_add_mod ((x <<< n) ||| y) (2 ^ n)
  rw [hmod, hdiv] at hz
  rw [Nat.mul_comm x (2 ^ n)]
  exact hz.symm

/-- Masking with a shifted mask commutes with shifting. -/
theorem land_shiftLeft_comm (z y n : Nat) : z &&& (y <<< n) = ((z >>> n) &&& y) <<< n := by
  apply Nat.eq_of_testBit_eq
  intro i
  simp only [Nat.testBit_and, Nat.testBit_shiftLeft, Nat.testBit_shiftRight]
  rcases Nat.lt_or_ge i n with hi | hi
  · simp [Nat.not_le.mpr hi]
  · have hni : n + (i - n) = i := by omega
    simp [hi, hni]

/-- The bits-8-to-14 field read as `z / 256 % 128` only depends on
`z &&& 0x7F00`. -/
theorem div256_mod128_eq_land (z : Nat) : z / 256 % 128 = (z &&& 32512) / 256 := by
  rw [show (32512 : Nat) = 127 <<< 8 from by decide, land_shiftLeft_comm, Nat.shiftLeft_eq,
    Nat.shiftRight_eq_div_pow, show ((2 : Nat) ^ 8) = 256 from by norm_num,
    Nat.mul_div_cancel _ (by norm_num : 0 < (256 : Nat)),
    show (127 : Nat) = 2 ^ 7 - 1 from by norm_num, land_two_pow_sub_one_eq_mod,
    show ((2 : Nat) ^ 7) = 128 from by norm_num]

namespace ModbusSerialProtocol
namespace StatusBits

/-- `calcField` leaves every bit outside `fieldMask` unchanged. -/
theorem calcField_frame (m w v : Nat) (hm : m < 65536) (hw : w < 65536) :
    calcField m w v &&& (65535 ^^^ m) = w &&& (65535 ^^^ m) := by
  apply Nat.eq_of_testBit_eq
  intro i
  simp only [calcField, show (65535 : Nat) = 2 ^ 16 - 1 from by norm_num,
    show (4294967295 : Nat) = 2 ^ 32 - 1 from by norm_num,
    show (65536 : Nat) = 2 ^ 16 from by norm_num,
    Nat.testBit_and, Nat.testBit_or, Nat.testBit_xor, Nat.testBit_mod_two_pow,
    Nat.testBit_two_pow_sub_one]
  rcases Nat.lt_or_ge i 16 with hi | hi
  · have h32 : i < 32 := by omega
    cases hmi : m.testBit i <;> cases hwi : w.testBit i <;>
      cases hxi : (v * getLsb m).testBit i <;> simp [hi, h32]
  · have hmi : m.testBit i = false := by
      refine Nat.testBit_lt_two_pow (lt_of_lt_of_le hm ?_)
      calc (65536 : Nat) = 2 ^ 16 := by norm_num
        _ ≤ 2 ^ i := Nat.pow_le_pow_right (by norm_num) hi
    have hwi : w.testBit i = false := by
      refine Nat.testBit_lt_two_pow (lt_of_lt_of_le hw ?_)
      calc (65536 : Nat) = 2 ^ 16 := by norm_num
        _ ≤ 2 ^ i := Nat.pow_le_pow_right (by norm_num) hi
    simp [hmi, hwi, Nat.not_lt.mpr hi]

/-- The bits of `calcField` inside `fieldMask` are exactly the inserted
(`v * lsb`) bits. -/
theorem calcField_extract (m w v : Nat) (hm : m < 65536) :
    calcField m w v &&& m = (v * getLsb m) &&& m := by
  apply Nat.eq_of_testBit_eq
  intro i
  simp only [calcField, show (4294967295 : Nat) = 2 ^ 32 - 1 from by norm_num,
    show (65536 : Nat) = 2 ^ 16 from by norm_num,
    Nat.testBit_and, Nat.testBit_or, Nat.testBit_xor, Nat.testBit_mod_two_pow,
    Nat.testBit_two_pow_sub_one]
  rcases Nat.lt_or_ge i 16 with hi | hi
  · have h32 : i < 32 := by omega
    cases hmi : m.testBit i <;> cases hwi : w.testBit i <;>
      cases hxi : (v * getLsb m).testBit i <;> simp [hi, h32]
  · have hmi : m.testBit i = false := by
      refine Nat.testBit_lt_two_pow (lt_of_lt_of_le hm ?_)
      calc (65536 : Nat) = 2 ^ 16 := by norm_num
        _ ≤ 2 ^ i := Nat.pow_le_pow_right (by norm_num) hi
    simp [hmi]

end StatusBits
end ModbusSerialProtocol

end McciCatena

namespace McciCatena

open ModbusSerialProtocol ModbusSerialProtocol.StatusBits

/-- Claim C1: the planner's `charsToSend` is NOT `min(tx-available-field, nToWrite)`
in general, because `getTxAvail` divides the whole status word by `0x100`
without masking, so the connect bit (bit 15) leaks into the count.  With raw
status `0x8000` (connected, tx-available field = 0) and `nToWrite = 25` the
code produces `charsToSend = 25` where the claim demands
`min(0, 25) = 0`.  The claim's two concrete examples (which keep the high
bits clear) do hold, as the last conjunct shows. -/
theorem C1_txPlan_unmasked_bug :
    (ModbusSerialProtocol.StatusBits.mk 0x8000).getTxRegisterAndCount 25 =
      ⟨25, 13, 2051⟩ ∧
    min ((0x8000 &&& 0x7F00) / 0x0100) 25 = 0 ∧
    (ModbusSerialProtocol.StatusBits.mk 0x0A00).getTxRegisterAndCount 25 = ⟨10, 5, 2059⟩ ∧
    (ModbusSerialProtocol.StatusBits.mk 0).getTxRegisterAndCount 25 = ⟨0, 0, 2063⟩ := by
  decide

/-- Claim C2: `getField` omits the `& fieldMask` step, so the getters do not
extract their masked field: `getInputAvail` on raw image `0x0080` returns
`128` (the claim's `(w & 0x007F) / 1` is `0`), and `getTxAvail` on raw image
`0x8000` returns `128` (the claim's `(w & 0x7F00) / 0x100` is `0`); both
escape the claimed 0-127 range. -/
theorem C2_getField_unmasked_bug :
    (ModbusSerialProtocol.StatusBits.mk 0x0080).getInputAvail = 128 ∧
    (0x0080 &&& 0x007F) / 1 = 0 ∧
    (ModbusSerialProtocol.StatusBits.mk 0x8000).getTxAvail = 128 ∧
    (0x8000 &&& 0x7F00) / 0x0100 = 0 := by
  decide

/-- Claim C3: with the receive-available field (bits 0-6) equal to 0 but
bit 7 set (raw image `0x0080`), `getRegsToReadForInput` returns 64, not
`ceil(0/2) = 0`: the unmasked `getInputAvail` feeds the higher bits into
the register count, so the claim fails when the other nine bits are
arbitrary. -/
theorem C3_regsToRead_highbits_bug :
    (ModbusSerialProtocol.StatusBits.mk 0x0080).getRegsToReadForInput = 64 ∧
    (ModbusSerialProtocol.StatusBits.mk 0x0080).m_bits % 128 = 0 := by
  decide

/-- Claim C4: `nCharsToRegs n = (n >> 1) + (n & 1)` equals `ceil(n/2)` for
every 16-bit `n`, with no 16-bit wraparound. -/
theorem C4_nCharsToRegs_ceil (n : Nat) (h : n < 65536) :
    ModbusSerialProtocol.StatusBits.nCharsToRegs n = (n + 1) / 2 := by
  unfold ModbusSerialProtocol.StatusBits.nCharsToRegs
  rw [Nat.shiftRight_eq_div_pow, Nat.and_one_is_mod, pow_one]
  omega

/-- Witness for C4 at the boundary input `0xFFFF`. -/
theorem C4_nCharsToRegs_ceil_witness :
    ModbusSerialProtocol.StatusBits.nCharsToRegs 65535 = 32768 := by
  have h := C4_nCharsToRegs_ceil 65535 (by norm_num)
  omega

/-- Claim C5: each of the four field setters leaves every bit outside its
own field mask unchanged (hence any one field's update leaves the other
three fields intact). -/
theorem C5_setters_frame (s : ModbusSerialProtocol.StatusBits) (v : Nat) (f : Bool)
    (hw : s.m_bits < 65536) :
    ((s.setInputAvail v).m_bits &&& (65535 ^^^ kInputAvail) =
      s.m_bits &&& (65535 ^^^ kInputAvail)) ∧
    ((s.setTxEmpty f).m_bits &&& (65535 ^^^ kTxEmpty) =
      s.m_bits &&& (65535 ^^^ kTxEmpty)) ∧
    ((s.setTxAvail v).m_bits &&& (65535 ^^^ kTxAvail) =
      s.m_bits &&& (65535 ^^^ kTxAvail)) ∧
    ((s.setConnected f).m_bits &&& (65535 ^^^ kConnect) =
      s.m_bits &&& (65535 ^^^ kConnect)) :=
  ⟨calcField_frame kInputAvail s.m_bits (v % 256) (by decide) hw,
   calcField_frame kTxEmpty s.m_bits (if f then 1 else 0) (by decide) hw,
   calcField_frame kTxAvail s.m_bits (v % 256) (by decide) hw,
   calcField_frame kConnect s.m_bits (if f then 1 else 0) (by decide) hw⟩

/-- Witness for C5 at the concrete status `0x1234`, setting each field to
its maximum. -/
theorem C5_setters_frame_witness :
    (((ModbusSerialProtocol.StatusBits.mk 0x1234).setInputAvail 127).m_bits &&&
        (65535 ^^^ kInputAvail) =
      (ModbusSerialProtocol.StatusBits.mk 0x1234).m_bits &&& (65535 ^^^ kInputAvail)) ∧
    (((ModbusSerialProtocol.StatusBits.mk 0x1234).setTxEmpty true).m_bits &&&
        (65535 ^^^ kTxEmpty) =
      (ModbusSerialProtocol.StatusBits.mk 0x1234).m_bits &&& (65535 ^^^ kTxEmpty)) ∧
    (((ModbusSerialProtocol.StatusBits.mk 0x1234).setTxAvail 127).m_bits &&&
        (65535 ^^^ kTxAvail) =
      (ModbusSerialProtocol.StatusBits.mk 0x1234).m_bits &&& (65535 ^^^ kTxAvail)) ∧
    (((ModbusSerialProtocol.StatusBits.mk 0x1234).setConnected true).m_bits &&&
        (65535 ^^^ kConnect) =
      (ModbusSerialProtocol.StatusBits.mk 0x1234).m_bits &&& (65535 ^^^ kConnect)) :=
  C5_setters_frame (ModbusSerialProtocol.StatusBits.mk 0x1234) 127 true (by decide)

/-- Claim C6: for any 8-bit input, `setInputAvail` stores `v mod 128` into
bits 0-6 and `setTxAvail` stores `v mod 128` into bits 8-14; values above
127 are silently masked to the 7-bit field. -/
theorem C6_setters_truncate (s : ModbusSerialProtocol.StatusBits) (v : Nat) (_hv : v < 256) :
    (s.setInputAvail v).m_bits % 128 = v % 128 ∧
    (s.setTxAvail v).m_bits / 256 % 128 = v % 128 := by
  constructor
  · have h := calcField_extract kInputAvail s.m_bits (v % 256) (by decide)
    rw [show getLsb kInputAvail = 1 from by decide, Nat.mul_one] at h
    have h2 : (s.setInputAvail v).m_bits &&& (2 ^ 7 - 1) = (v % 256) &&& (2 ^ 7 - 1) := by
      have e : (2 : Nat) ^ 7 - 1 = kInputAvail := by decide
      rw [e]
      exact h
    rw [land_two_pow_sub_one_eq_mod, land_two_pow_sub_one_eq_mod] at h2
    have e7 : (2 : Nat) ^ 7 = 128 := by norm_num
    rw [e7] at h2
    omega
  · have h := calcField_extract kTxAvail s.m_bits (v % 256) (by decide)
    rw [show getLsb kTxAvail = 256 from by decide] at h
    have h1 := div256_mod128_eq_land (s.setTxAvail v).m_bits
    have h2 := div256_mod128_eq_land (v % 256 * 256)
    rw [h1, show (s.setTxAvail v).m_bits &&& 32512 = v % 256 * 256 &&& 32512 from h, ← h2,
      Nat.mul_div_cancel _ (by norm_num : 0 < (256 : Nat))]
    omega

/-- Witness for C6 at raw status `0xFFFF` and the out-of-range input 255. -/
theorem C6_setters_truncate_witness :
    ((ModbusSerialProtocol.StatusBits.mk 0xFFFF).setInputAvail 255).m_bits % 128 = 255 % 128 ∧
    ((ModbusSerialProtocol.StatusBits.mk 0xFFFF).setTxAvail 255).m_bits / 256 % 128 =
      255 % 128 :=
  C6_setters_truncate (ModbusSerialProtocol.StatusBits.mk 0xFFFF) 255 (by decide)

/-- Claim C7: packing four byte components with `makeVersion` and unpacking
with `getMajor`/`getMinor`/`getPatch`/`getLocal` recovers the components. -/
theorem C7_version_roundtrip (a b c d : Nat)
    (ha : a < 256) (hb : b < 256) (hc : c < 256) (hd : d < 256) :
    getMajor (makeVersion a b c d) = a ∧ getMinor (makeVersion a b c d) = b ∧
    getPatch (makeVersion a b c d) = c ∧ getLocal (makeVersion a b c d) = d := by
  have e : makeVersion a b c d = a * 16777216 + b * 65536 + c * 256 + d := by
    unfold makeVersion Internal.makeVersion
    rw [Nat.mod_eq_of_lt ha, Nat.mod_eq_of_lt hb, Nat.mod_eq_of_lt hc, Nat.mod_eq_of_lt hd,
      Nat.lor_assoc, Nat.lor_assoc,
      shiftLeft_lor_eq_add c d 8 (by omega),
      shiftLeft_lor_eq_add b (c * 2 ^ 8 + d) 16 (by omega),
      shiftLeft_lor_eq_add a (b * 2 ^ 16 + (c * 2 ^ 8 + d)) 24 (by omega)]
    omega
  simp only [getMajor, getMinor, getPatch, getLocal, e, Nat.shiftRight_eq_div_pow]
  refine ⟨by omega, by omega, by omega, by omega⟩

/-- Witness for C7 at `(18, 52, 86, 120)`. -/
theorem C7_version_roundtrip_witness :
    getMajor (makeVersion 18 52 86 120) = 18 ∧ getMinor (makeVersion 18 52 86 120) = 52 ∧
    getPatch (makeVersion 18 52 86 120) = 86 ∧ getLocal (makeVersion 18 52 86 120) = 120 :=
  C7_version_roundtrip 18 52 86 120 (by decide) (by decide) (by decide) (by decide)

/-- Claim C8: translating a 16-bit bus address (below `0xFFFF`) to a
1-origin register identifier and back is the identity. -/
theorem C8_address_roundtrip (a : Nat) (h : a ≤ 65534) :
    getAddress (getRegister a) = a := by
  unfold getAddress getRegister
  omega

/-- Witness for C8 at the boundary address `0xFFFE`. -/
theorem C8_address_roundtrip_witness : getAddress (getRegister 65534) = 65534 :=
  C8_address_roundtrip 65534 (by decide)

/-- Claim C9: the variant-A register-layout constants have exactly the
claimed wire geometry. -/
theorem C9_register_geometry :
    knRxDataReg = 63 ∧ knTxDataReg = 63 ∧
    Register.RxData_vu16 = 1002 ∧
    Register.RxDataLast_u16 = Register.RxData_vu16 + 63 - 1 ∧
    Register.RxDataLast_u16 = 1064 ∧
    Register.TxData_vu16 = 2001 ∧
    Register.TxDataLast_u16 = Register.TxData_vu16 + 63 - 1 ∧
    Register.TxDataLast_u16 = 2063 ∧
    Register.TxDataByte_u16 = Register.TxDataLast_u16 + 1 ∧
    Register.TxDataByte_u16 = 2064 := by
  decide

/-- Claim C10: for every (16-bit) status image and requested byte count, the
planner's base register is odd; it is `2063 - regCount` when `regCount` is
even and `2064 - regCount` when `regCount` is odd. -/
theorem C10_txPlan_base_odd (s : ModbusSerialProtocol.StatusBits) (nToWrite : Nat)
    (hw : s.m_bits < 65536) :
    (s.getTxRegisterAndCount nToWrite).baseReg % 2 = 1 ∧
    ((s.getTxRegisterAndCount nToWrite).regCount % 2 = 0 →
      (s.getTxRegisterAndCount nToWrite).baseReg =
        2063 - (s.getTxRegisterAndCount nToWrite).regCount) ∧
    ((s.getTxRegisterAndCount nToWrite).regCount % 2 = 1 →
      (s.getTxRegisterAndCount nToWrite).baseReg =
        2064 - (s.getTxRegisterAndCount nToWrite).regCount) := by
  have hta : s.getTxAvail = s.m_bits / 256 := by
    unfold ModbusSerialProtocol.StatusBits.getTxAvail ModbusSerialProtocol.StatusBits.getField
    rw [show getLsb kTxAvail = 256 from by decide]
  unfold ModbusSerialProtocol.StatusBits.getTxRegisterAndCount
  rw [hta]
  simp only [ModbusSerialProtocol.StatusBits.nCharsToRegs, Nat.shiftRight_eq_div_pow,
    Nat.and_one_is_mod, pow_one, Register.TxDataLast_u16, Register.TxData_vu16, knTxDataReg]
  have hb : (if nToWrite < s.m_bits / 256 then nToWrite else s.m_bits / 256) ≤ 255 := by
    split <;> omega
  generalize hx : (if nToWrite < s.m_bits / 256 then nToWrite else s.m_bits / 256) = x at hb ⊢
  refine ⟨?_, ?_, ?_⟩ <;> split_ifs <;> omega

/-- Witness for C10 at raw status `0x0A00` (10 slots free) and 25 requested
bytes. -/
theorem C10_txPlan_base_odd_witness :
    ((ModbusSerialProtocol.StatusBits.mk 0x0A00).getTxRegisterAndCount 25).baseReg % 2 = 1 ∧
    (((ModbusSerialProtocol.StatusBits.mk 0x0A00).getTxRegisterAndCount 25).regCount % 2 = 0 →
      ((ModbusSerialProtocol.StatusBits.mk 0x0A00).getTxRegisterAndCount 25).baseReg =
        2063 - ((ModbusSerialProtocol.StatusBits.mk 0x0A00).getTxRegisterAndCount 25).regCount) ∧
    (((ModbusSerialProtocol.StatusBits.mk 0x0A00).getTxRegisterAndCount 25).regCount % 2 = 1 →
      ((ModbusSerialProtocol.StatusBits.mk 0x0A00).getTxRegisterAndCount 25).baseReg =
        2064 - ((ModbusSerialProtocol.StatusBits.mk 0x0A00).getTxRegisterAndCount 25).regCount) :=
  C10_txPlan_base_odd (ModbusSerialProtocol.StatusBits.mk 0x0A00) 25 (by decide)

end McciCatena
